import Mathlib

/-!
Shallow embedding of the math-game move engine
(src/components/math-game.tsx).

JavaScript numbers are modelled as rationals: every arithmetic
operation the game performs (addition, subtraction, multiplication,
division and rounding to two decimals) is exact on the inputs the game
produces.  Math.round is modelled as x ↦ ⌊x + 1/2⌋, which is
JavaScript's round-half-toward-positive-infinity.  A JavaScript
runtime TypeError (reading a property of undefined, which is what an
out-of-bounds grid access produces) is modelled by returning none from
the function that would throw.
-/

/-- One grid cell, mirroring the source type Cell. -/
structure Cell where
  value : ℚ
  used : Bool
  id : String
  deriving DecidableEq

/-- The grid is a row-major list of rows of cells (the source's Cell[][]). -/
abbrev Grid := List (List Cell)

/-- The source constant GRID_SIZE = 4. -/
def GRID_SIZE : ℕ := 4

/-- generateInitialGrid: builds the GRID_SIZE × GRID_SIZE grid.  The
argument rand models the stream of Math.floor(Math.random() * 9) draws
(one value in 0..8 per cell, indexed in generation order, which is also
the value of the id counter); the cell value is that draw plus 1, and
the id string is built from the row, the column and the counter. -/
def generateInitialGrid (rand : ℕ → Fin 9) : Grid :=
  (List.range GRID_SIZE).map fun i =>
    (List.range GRID_SIZE).map fun j =>
      { value := (((rand (i * GRID_SIZE + j)).val + 1 : ℕ) : ℚ),
        used := false,
        id := toString i ++ "-" ++ toString j ++ "-" ++ toString (i * GRID_SIZE + j) }

/-- The component state: the six useState variables of MathGame. -/
structure GameState where
  grid : Grid
  currentValue : Option ℚ
  selectedCell : Option (ℤ × ℤ)
  score : ℚ
  moves : ℕ
  gameOver : Bool
  deriving DecidableEq

/-- The state immediately after mounting with a given generated grid, and
also the state produced by resetGame with a freshly generated grid. -/
def initState (g : Grid) : GameState :=
  { grid := g, currentValue := none, selectedCell := none,
    score := 0, moves := 0, gameOver := false }

/-- grid[r][c] as JavaScript evaluates it: none when the access lands
outside the array (undefined), in which case any subsequent property
read throws. -/
def getCell (g : Grid) (r c : ℤ) : Option Cell :=
  if decide (0 ≤ r) && decide (0 ≤ c) then
    match g.get? r.toNat with
    | some row => row.get? c.toNat
    | none => none
  else none

/-- Helper for the in-place update newGrid[row][col].used = true: set the
used flag of the cell at index c of one row. -/
def markUsedRow : List Cell → ℕ → List Cell
  | [], _ => []
  | cell :: rest, 0 => { cell with used := true } :: rest
  | cell :: rest, Nat.succ n => cell :: markUsedRow rest n

/-- Helper: apply markUsedRow to the row at index r. -/
def markUsedGrid : Grid → ℕ → ℕ → Grid
  | [], _, _ => []
  | row :: rest, 0, c => markUsedRow row c :: rest
  | row :: rest, Nat.succ r, c => row :: markUsedGrid rest r c

/-- The source's grid update: shallow-copy the whole matrix and set
newGrid[row][col].used = true.  The copy itself is the identity on the
value level; the net effect is the single-cell update.  The write site
is only ever reached with in-bounds indices (the cell was fetched
first), which the nonnegativity guard mirrors. -/
def markUsed (g : Grid) (r c : ℤ) : Grid :=
  if decide (0 ≤ r) && decide (0 ≤ c) then markUsedGrid g r.toNat c.toNat else g

/-- grid.flat().filter((c) => !c.used).length, the availableCells count of
the game-over effect. -/
def countUnused (g : Grid) : ℕ :=
  ((g.flatten.filter fun c => !c.used)).length

/-- grid.flat().filter((c) => c.used).length, the usedCells count shown on
the game-over screen. -/
def usedCount (g : Grid) : ℕ :=
  ((g.flatten.filter fun c => c.used)).length

/-- getDirection: classify the step from (fromRow, fromCol) to
(toRow, toCol).  Adjacent cells only; the returned operation string
depends solely on the row and column differences. -/
def getDirection (fromRow fromCol toRow toCol : ℤ) : Option String :=
  if (toRow - fromRow).natAbs > 1 ∨ (toCol - fromCol).natAbs > 1 then none
  else if toRow - fromRow = 0 ∧ toCol - fromCol = 0 then none
  else if toRow - fromRow = 0 ∧ toCol - fromCol = 1 then some "add"
  else if toRow - fromRow = -1 ∧ toCol - fromCol = 0 then some "add"
  else if toRow - fromRow = 0 ∧ toCol - fromCol = -1 then some "subtract"
  else if toRow - fromRow = 1 ∧ toCol - fromCol = 0 then some "subtract"
  else if toRow - fromRow = -1 ∧ toCol - fromCol = 1 then some "multiply"
  else if toRow - fromRow = 1 ∧ toCol - fromCol = 1 then some "multiply"
  else if toRow - fromRow = -1 ∧ toCol - fromCol = -1 then some "divide"
  else if toRow - fromRow = 1 ∧ toCol - fromCol = -1 then some "divide"
  else none

/-- Math.round(x * 100) / 100, the divide branch's rounding to two
decimal places; Math.round is floor of x + 1/2. -/
def roundTo2 (x : ℚ) : ℚ :=
  ((⌊x * 100 + 1 / 2⌋ : ℤ) : ℚ) / 100

/-- The switch (operation) block of performOperation: the computed value
for each operation string, or none for the default case (whose early
return leaves the state untouched).  In the divide branch the source
first picks currentValue / targetValue (or currentValue when the target
value is 0) and then rounds the chosen value to two decimal places. -/
def computeResult (currentValue targetValue : ℚ) (operation : String) : Option ℚ :=
  if operation = "add" then some (currentValue + targetValue)
  else if operation = "subtract" then some (currentValue - targetValue)
  else if operation = "multiply" then some (currentValue * targetValue)
  else if operation = "divide" then
    some (roundTo2 (if targetValue ≠ 0 then currentValue / targetValue else currentValue))
  else none

/-- performOperation: apply the operation named by the string to
currentValue and the target cell's value, consume the target cell, move
the selection there, bump the move counter and update the best score.
The early returns of the source (null currentValue or selectedCell,
target already used, unknown operation string) leave the state
unchanged; an out-of-bounds target access throws (none). -/
def performOperation (s : GameState) (targetRow targetCol : ℤ) (operation : String) :
    Option GameState :=
  match s.currentValue, s.selectedCell with
  | some currentValue, some _ =>
    match getCell s.grid targetRow targetCol with
    | none => none
    | some targetCell =>
      if targetCell.used then some s
      else
        match computeResult currentValue targetCell.value operation with
        | none => some s
        | some result =>
          some { s with
            grid := markUsed s.grid targetRow targetCol,
            currentValue := some result,
            selectedCell := some (targetRow, targetCol),
            moves := s.moves + 1,
            score := if s.score < result then result else s.score }
  | _, _ => some s

/-- handleCellPress: the tap handler.  Fetching grid[row][col] out of
bounds throws (none); a used cell or a finished game ignores the tap;
with no active selection the tap is the first selection; otherwise the
direction to the tapped cell is resolved and, when non-null, the
operation is performed.  The source's selectedCell! on a null
selectedCell would also throw (none). -/
def handleCellPress (s : GameState) (row col : ℤ) : Option GameState :=
  match getCell s.grid row col with
  | none => none
  | some cell =>
    if cell.used || s.gameOver then some s
    else
      match s.currentValue with
      | none =>
        some { s with
          grid := markUsed s.grid row col,
          currentValue := some cell.value,
          selectedCell := some (row, col),
          moves := s.moves + 1 }
      | some _ =>
        match s.selectedCell with
        | none => none
        | some sel =>
          match getDirection sel.1 sel.2 row col with
          | some operation => performOperation s row col operation
          | none => some s

/-- The bounds test r >= 0 && r < GRID_SIZE && c >= 0 && c < GRID_SIZE of
theneighbourhood loops. -/
def inBounds (r c : ℤ) : Bool :=
  decide (0 ≤ r) && decide (r < (GRID_SIZE : ℤ)) &&
    decide (0 ≤ c) && decide (c < (GRID_SIZE : ℤ))

/-- The hasAvailableMoves double loop of the game-over effect: scan
r from row-1 to row+1 and c from col-1 to col+1, and report whether some
in-bounds cell other than the centre is unused. -/
def hasAvailableMovesFrom (g : Grid) (row col : ℤ) : Bool :=
  (List.range 3).any fun i =>
    (List.range 3).any fun j =>
      inBounds (row - 1 + (i : ℤ)) (col - 1 + (j : ℤ)) &&
        match getCell g (row - 1 + (i : ℤ)) (col - 1 + (j : ℤ)) with
        | some cell =>
          !cell.used &&
            !(decide (row - 1 + (i : ℤ) = row) && decide (col - 1 + (j : ℤ) = col))
        | none => false

/-- The game-over useEffect: with no selection, no current value or an
already finished game it does nothing; otherwise it sets gameOver when
no cell is left or the selected cell has no available move. -/
def checkGameOver (s : GameState) : GameState :=
  match s.selectedCell, s.currentValue with
  | some sel, some _ =>
    if s.gameOver then s
    else if countUnused s.grid == 0 || !hasAvailableMovesFrom s.grid sel.1 sel.2 then
      { s with gameOver := true }
    else s
  | _, _ => s

/-- One user tap: the press handler followed by the re-rendered effect. -/
def tapStep (s : GameState) (rc : ℤ × ℤ) : Option GameState :=
  (handleCellPress s rc.1 rc.2).map checkGameOver

/-- A whole sequence of taps within one session. -/
def runTaps (s : GameState) : List (ℤ × ℤ) → Option GameState
  | [] => some s
  | rc :: rest =>
    match tapStep s rc with
    | some s' => runTaps s' rest
    | none => none

/-- The grid shape every generated grid has: GRID_SIZE rows of
GRID_SIZE cells. -/
def gridWF (g : Grid) : Prop :=
  g.length = GRID_SIZE ∧ ∀ row ∈ g, row.length = GRID_SIZE

/-- A grid is a fresh one exactly when some random stream generates it. -/
def validInitGrid (g : Grid) : Prop :=
  ∃ rand : ℕ → Fin 9, g = generateInitialGrid rand

/-- The states the engine can be in: a freshly mounted or reset state
with a generated grid, anything a tap produces from a reachable state,
and anything the game-over effect produces from a reachable state. -/
inductive Reachable : GameState → Prop
  | init (g : Grid) (hg : validInitGrid g) : Reachable (initState g)
  | tap (s : GameState) (r c : ℤ) (s' : GameState) (hs : Reachable s)
      (hstep : handleCellPress s r c = some s') : Reachable s'
  | check (s : GameState) (hs : Reachable s) : Reachable (checkGameOver s)

/-- A concrete random stream: every draw is 0, so every cell value is 1. -/
def exRand : ℕ → Fin 9 := fun _ => 0

/-- The concrete all-ones generated grid. -/
def exGrid : Grid := generateInitialGrid exRand

/-- The concrete freshly mounted state. -/
def exState0 : GameState := initState exGrid

/-- The concrete state after tapping (0, 0) in exState0: the first
selection consumes the corner cell. -/
def exState1 : GameState :=
  { grid := markUsed exGrid 0 0, currentValue := some 1, selectedCell := some (0, 0),
    score := 0, moves := 1, gameOver := false }

/-- A used cell for building concrete states. -/
def usedOneCell : Cell := { value := 1, used := true, id := "u" }

/-- An unused cell holding 0, the hypothetical divide-by-zero target. -/
def zeroCell : Cell := { value := 0, used := false, id := "z" }

/-- An unused cell holding 1. -/
def oneCell : Cell := { value := 1, used := false, id := "p" }

/-- A concrete state about to divide by the zero-valued cell at (0, 1):
the selection sits at (0, 0) and the running value is 1/8, a value with
three decimal places. -/
def cex7State : GameState :=
  { grid := [[usedOneCell, zeroCell], [oneCell, oneCell]],
    currentValue := some (1 / 8), selectedCell := some (0, 0),
    score := 0, moves := 1, gameOver := false }

/-- C1: the Direction Resolver is a total pure function of the two
coordinates.  It returns none exactly when the Chebyshev distance
between the coordinates is not 1 (which covers equal coordinates), add
for a right or up neighbour, subtract for a left or down neighbour,
multiply for an up-right or down-right neighbour, and divide for an
up-left or down-left neighbour, where up means decreasing row index and
right means increasing column index. -/
theorem getDirection_spec (fromRow fromCol toRow toCol : ℤ) :
    (getDirection fromRow fromCol toRow toCol = none ↔
      max (toRow - fromRow).natAbs (toCol - fromCol).natAbs ≠ 1) ∧
    (getDirection fromRow fromCol toRow toCol = some "add" ↔
      (toRow - fromRow = 0 ∧ toCol - fromCol = 1) ∨
      (toRow - fromRow = -1 ∧ toCol - fromCol = 0)) ∧
    (getDirection fromRow fromCol toRow toCol = some "subtract" ↔
      (toRow - fromRow = 0 ∧ toCol - fromCol = -1) ∨
      (toRow - fromRow = 1 ∧ toCol - fromCol = 0)) ∧
    (getDirection fromRow fromCol toRow toCol = some "multiply" ↔
      (toRow - fromRow = -1 ∧ toCol - fromCol = 1) ∨
      (toRow - fromRow = 1 ∧ toCol - fromCol = 1)) ∧
    (getDirection fromRow fromCol toRow toCol = some "divide" ↔
      (toRow - fromRow = -1 ∧ toCol - fromCol = -1) ∨
      (toRow - fromRow = 1 ∧ toCol - fromCol = -1)) := by
  unfold getDirection
  generalize toRow - fromRow = d1
  generalize toCol - fromCol = d2
  by_cases h1 : d1.natAbs > 1 ∨ d2.natAbs > 1
  · rw [if_pos h1]
    exact ⟨iff_of_true rfl (by omega), iff_of_false (by simp) (by omega),
      iff_of_false (by simp) (by omega), iff_of_false (by simp) (by omega),
      iff_of_false (by simp) (by omega)⟩
  · push_neg at h1
    obtain ⟨ha, hb⟩ := h1
    have h2 : -1 ≤ d1 := by omega
    have h3 : d1 ≤ 1 := by omega
    have h4 : -1 ≤ d2 := by omega
    have h5 : d2 ≤ 1 := by omega
    interval_cases d1 <;> interval_cases d2 <;> decide

/-- C1 witness: a step one cell to the right resolves to add. -/
theorem getDirection_spec_witness : getDirection 0 0 0 1 = some "add" :=
  ((getDirection_spec 0 0 0 1).2.1).mpr (Or.inl (by decide))

/-- Reading a cell succeeds exactly on nonnegative indices that hit the
list structure. -/
theorem getCell_elim (g : Grid) (r c : ℤ) (cell : Cell)
    (h : getCell g r c = some cell) :
    0 ≤ r ∧ 0 ≤ c ∧ ∃ row, g.get? r.toNat = some row ∧ row.get? c.toNat = some cell := by
  unfold getCell at h
  by_cases h0 : (decide (0 ≤ r) && decide (0 ≤ c)) = true
  · rw [if_pos h0] at h
    simp only [Bool.and_eq_true, decide_eq_true_eq] at h0
    cases hrow : g.get? r.toNat with
    | none => rw [hrow] at h; exact absurd h (by simp)
    | some row =>
      rw [hrow] at h
      exact ⟨h0.1, h0.2, row, rfl, h⟩
  · rw [if_neg h0] at h; exact absurd h (by simp)

/-- On nonnegative indices markUsed is the structural update. -/
theorem markUsed_eq (g : Grid) (r c : ℤ) (h0 : 0 ≤ r) (h1 : 0 ≤ c) :
    markUsed g r c = markUsedGrid g r.toNat c.toNat := by
  unfold markUsed
  rw [if_pos (by simp [h0, h1])]

/-- markUsedRow at the written index. -/
theorem markUsedRow_get_self (row : List Cell) (c : ℕ) :
    (markUsedRow row c).get? c = (row.get? c).map fun cell => { cell with used := true } := by
  induction row generalizing c with
  | nil => simp [markUsedRow]
  | cons hd tl ih =>
    cases c with
    | zero => simp [markUsedRow]
    | succ n => simpa [markUsedRow] using ih n

/-- markUsedGrid at the written row. -/
theorem markUsedGrid_get_self (g : Grid) (r c : ℕ) :
    (markUsedGrid g r c).get? r = (g.get? r).map fun row => markUsedRow row c := by
  induction g generalizing r with
  | nil => simp [markUsedGrid]
  | cons hd tl ih =>
    cases r with
    | zero => simp [markUsedGrid]
    | succ n => simpa [markUsedGrid] using ih n

/-- After marking a fetched cell used, fetching it again yields the same
cell with its used flag on. -/
theorem getCell_markUsed_self (g : Grid) (r c : ℤ) (cell : Cell)
    (h : getCell g r c = some cell) :
    getCell (markUsed g r c) r c = some { cell with used := true } := by
  obtain ⟨h0, h1, row, hrow, hcell⟩ := getCell_elim g r c cell h
  rw [markUsed_eq g r c h0 h1]
  unfold getCell
  rw [if_pos (by simp [h0, h1]), markUsedGrid_get_self, hrow]
  simp only [Option.map_some']
  rw [markUsedRow_get_self, hcell]
  rfl

/-- Marking one unused cell in a row bumps its used count by one. -/
theorem filter_markUsedRow (row : List Cell) (c : ℕ) (cell : Cell)
    (hget : row.get? c = some cell) (hu : cell.used = false) :
    ((markUsedRow row c).filter fun x => x.used).length
      = ((row.filter fun x => x.used)).length + 1 := by
  induction row generalizing c with
  | nil => simp at hget
  | cons hd tl ih =>
    cases c with
    | zero =>
      obtain rfl : hd = cell := by simpa using hget
      simp [markUsedRow, List.filter_cons, hu]
    | succ n =>
      have hget' : tl.get? n = some cell := by simpa using hget
      have htl := ih n hget'
      by_cases hh : hd.used
      · simp [markUsedRow, List.filter_cons, hh, htl]
      · simp [markUsedRow, List.filter_cons, hh, htl]

/-- Marking one unused cell in the grid bumps the used count by one. -/
theorem usedCount_markUsedGrid (g : Grid) (r c : ℕ) (row : List Cell) (cell : Cell)
    (hrow : g.get? r = some row) (hcell : row.get? c = some cell) (hu : cell.used = false) :
    usedCount (markUsedGrid g r c) = usedCount g + 1 := by
  induction g generalizing r with
  | nil => simp at hrow
  | cons hd tl ih =>
    cases r with
    | zero =>
      obtain rfl : hd = row := by simpa using hrow
      simp only [markUsedGrid, usedCount, List.flatten_cons, List.filter_append,
        List.length_append]
      have := filter_markUsedRow hd c cell hcell hu
      omega
    | succ n =>
      have hrow' : tl.get? n = some row := by simpa using hrow
      have htl := ih n hrow'
      simp only [markUsedGrid, usedCount, List.flatten_cons, List.filter_append,
        List.length_append] at htl ⊢
      omega

/-- Marking a fetched unused cell bumps the used count by one. -/
theorem usedCount_markUsed (g : Grid) (r c : ℤ) (cell : Cell)
    (h : getCell g r c = some cell) (hu : cell.used = false) :
    usedCount (markUsed g r c) = usedCount g + 1 := by
  obtain ⟨h0, h1, row, hrow, hcell⟩ := getCell_elim g r c cell h
  rw [markUsed_eq g r c h0 h1]
  exact usedCount_markUsedGrid g r.toNat c.toNat row cell hrow hcell hu

theorem checkGameOver_eq (s : GameState) :
    checkGameOver s = s ∨ checkGameOver s = { s with gameOver := true } := by
  unfold checkGameOver
  split
  · split
    · exact Or.inl rfl
    · split
      · exact Or.inr rfl
      · exact Or.inl rfl
  · exact Or.inl rfl

theorem checkGameOver_fields (s : GameState) :
    (checkGameOver s).grid = s.grid ∧ (checkGameOver s).currentValue = s.currentValue ∧
    (checkGameOver s).selectedCell = s.selectedCell ∧ (checkGameOver s).score = s.score ∧
    (checkGameOver s).moves = s.moves := by
  rcases checkGameOver_eq s with h | h <;> rw [h] <;> exact ⟨rfl, rfl, rfl, rfl, rfl⟩

theorem handleCellPress_cases (s : GameState) (r c : ℤ) (s' : GameState)
    (h : handleCellPress s r c = some s') :
    s' = s ∨
    ∃ cell, getCell s.grid r c = some cell ∧ cell.used = false ∧ s.gameOver = false ∧
      ((s.currentValue = none ∧
        s' = { s with grid := markUsed s.grid r c, currentValue := some cell.value,
                      selectedCell := some (r, c), moves := s.moves + 1 }) ∨
       (∃ v op result, s.currentValue = some v ∧
         computeResult v cell.value op = some result ∧
         s' = { s with grid := markUsed s.grid r c, currentValue := some result,
                       selectedCell := some (r, c), moves := s.moves + 1,
                       score := if s.score < result then result else s.score })) := by
  unfold handleCellPress at h
  split at h
  · exact absurd h (by simp)
  · rename_i cell hget
    split at h
    · exact Or.inl (Option.some.inj h).symm
    · rename_i hug
      simp only [Bool.or_eq_true, not_or, Bool.not_eq_true] at hug
      obtain ⟨hu, hgo⟩ := hug
      split at h
      · rename_i hcv
        exact Or.inr ⟨cell, hget, hu, hgo, Or.inl ⟨hcv, (Option.some.inj h).symm⟩⟩
      · rename_i v hcv
        split at h
        · exact absurd h (by simp)
        · rename_i sel hsel
          split at h
          · rename_i op hdir
            unfold performOperation at h
            split at h
            · rename_i cv' scell' hcv' hsel'
              split at h
              · exact absurd h (by simp)
              · rename_i targetCell hget'
                rw [hget] at hget'
                obtain rfl : cell = targetCell := Option.some.inj hget'
                rw [hcv] at hcv'
                obtain rfl : v = cv' := Option.some.inj hcv'
                split at h
                · rename_i hused
                  rw [hu] at hused
                  exact absurd hused (by simp)
                · split at h
                  · exact Or.inl (Option.some.inj h).symm
                  · rename_i result hres
                    exact Or.inr ⟨cell, hget, hu, hgo,
                      Or.inr ⟨v, op, result, hcv, hres, (Option.some.inj h).symm⟩⟩
            · exact Or.inl (Option.some.inj h).symm
          · exact Or.inl (Option.some.inj h).symm

/-- C2: with an active selection, a tap rejected by the Direction
Resolver, a tap on an already used cell, and a tap while the game is
over each leave the whole state unchanged and raise no error. -/
theorem attemptMove_rejection_noop (s : GameState) (r c : ℤ) (cell : Cell) (v : ℚ)
    (sel : ℤ × ℤ) (hv : s.currentValue = some v) (hsel : s.selectedCell = some sel)
    (hcell : getCell s.grid r c = some cell)
    (hrej : getDirection sel.1 sel.2 r c = none ∨ cell.used = true ∨ s.gameOver = true) :
    handleCellPress s r c = some s := by
  unfold handleCellPress
  split
  · rename_i heq
    rw [hcell] at heq
    exact absurd heq (by simp)
  · rename_i cell' heq
    rw [hcell] at heq
    obtain rfl : cell = cell' := Option.some.inj heq
    by_cases hug : (cell.used || s.gameOver) = true
    · rw [if_pos hug]
    · rw [if_neg hug]
      simp only [Bool.or_eq_true, not_or, Bool.not_eq_true] at hug
      obtain ⟨hu, hgo⟩ := hug
      have hdir : getDirection sel.1 sel.2 r c = none := by
        rcases hrej with h | h | h
        · exact h
        · rw [h] at hu; exact absurd hu (by simp)
        · rw [h] at hgo; exact absurd hgo (by simp)
      split
      · rename_i hcv
        rw [hv] at hcv
        exact absurd hcv (by simp)
      · rename_i v' hcv
        split
        · rename_i hsc
          rw [hsel] at hsc
          exact absurd hsc (by simp)
        · rename_i sel' hsc
          rw [hsel] at hsc
          obtain rfl : sel = sel' := Option.some.inj hsc
          split
          · rename_i op hd
            rw [hdir] at hd
            exact absurd hd (by simp)
          · rfl

/-- C2 witness: tapping the already consumed selected corner cell of a
concrete mid-game state is a no-op. -/
theorem attemptMove_rejection_noop_witness : handleCellPress exState1 0 0 = some exState1 :=
  attemptMove_rejection_noop exState1 0 0
    { value := 1, used := true, id := "0-0-0" } 1 (0, 0)
    rfl rfl (by decide) (Or.inr (Or.inl (by decide)))

/-- On a well-formed grid, any index outside [0, GRID_SIZE) in either
coordinate makes the fetch come back undefined. -/
theorem getCell_oob (g : Grid) (r c : ℤ) (hwf : gridWF g)
    (h : r < 0 ∨ (GRID_SIZE : ℤ) ≤ r ∨ c < 0 ∨ (GRID_SIZE : ℤ) ≤ c) :
    getCell g r c = none := by
  unfold getCell
  by_cases h0 : (decide (0 ≤ r) && decide (0 ≤ c)) = true
  · rw [if_pos h0]
    simp only [Bool.and_eq_true, decide_eq_true_eq] at h0
    obtain ⟨hr, hc⟩ := h0
    cases hrow : g.get? r.toNat with
    | none => rfl
    | some row =>
      have hrlt : r.toNat < g.length := by
        by_contra hge
        rw [List.get?_eq_none.mpr (by omega)] at hrow
        exact absurd hrow (by simp)
      have hclen : row.length = GRID_SIZE := hwf.2 row (List.get?_mem hrow)
      have hcge : (GRID_SIZE : ℤ) ≤ c := by
        rcases h with h | h | h | h
        · omega
        · rw [hwf.1] at hrlt
          have : (GRID_SIZE : ℕ) ≤ r.toNat := by omega
          omega
        · omega
        · exact h
      show row.get? c.toNat = none
      exact List.get?_eq_none.mpr (by omega)
  · rw [if_neg h0]

/-- C3 counterexample: the claim is false at the fresh all-ones state and
the out-of-bounds coordinate (4, 0): the tap does not return the
unchanged state; the unguarded grid access fails. -/
theorem oob_tap_claim_cex :
    handleCellPress exState0 4 0 ≠ some exState0 ∧ handleCellPress exState0 4 0 = none := by
  exact ⟨by decide, by decide⟩

/-- C3 amended: on a well-formed grid, a tap on a coordinate whose row or
column lies outside [0, GRID_SIZE) reaches the unguarded grid access and
throws (modelled as none) instead of being silently rejected; no changed
state is ever produced from such a tap. -/
theorem oob_tap_fails (s : GameState) (r c : ℤ) (hwf : gridWF s.grid)
    (h : r < 0 ∨ (GRID_SIZE : ℤ) ≤ r ∨ c < 0 ∨ (GRID_SIZE : ℤ) ≤ c) :
    handleCellPress s r c = none := by
  unfold handleCellPress
  rw [getCell_oob s.grid r c hwf h]

/-- C3 witness: the amended theorem applied at the fresh state and (4, 0). -/
theorem oob_tap_fails_witness : handleCellPress exState0 4 0 = none :=
  oob_tap_fails exState0 4 0 ⟨by decide, by decide⟩ (Or.inr (Or.inl (by decide)))

theorem countUnused_eq_zero_iff (g : Grid) :
    countUnused g = 0 ↔ ∀ cell ∈ g.flatten, cell.used = true := by
  unfold countUnused
  rw [List.length_eq_zero, List.filter_eq_nil_iff]
  simp

theorem getCell_bounds (g : Grid) (r c : ℤ) (cell : Cell) (hwf : gridWF g)
    (h : getCell g r c = some cell) :
    0 ≤ r ∧ r < (GRID_SIZE : ℤ) ∧ 0 ≤ c ∧ c < (GRID_SIZE : ℤ) := by
  obtain ⟨hr, hc, row, hrow, hcell⟩ := getCell_elim g r c cell h
  have hrlt : r.toNat < g.length := by
    by_contra hge
    rw [List.get?_eq_none.mpr (by omega)] at hrow
    exact absurd hrow (by simp)
  have hclt : c.toNat < row.length := by
    by_contra hge
    rw [List.get?_eq_none.mpr (by omega)] at hcell
    exact absurd hcell (by simp)
  have hglen := hwf.1
  have hrowlen := hwf.2 row (List.get?_mem hrow)
  omega

theorem hasAvailableMovesFrom_iff (g : Grid) (row col : ℤ) (hwf : gridWF g) :
    hasAvailableMovesFrom g row col = true ↔
      ∃ r c : ℤ, ∃ cell : Cell,
        (r - row).natAbs ≤ 1 ∧ (c - col).natAbs ≤ 1 ∧ ¬(r = row ∧ c = col) ∧
        getCell g r c = some cell ∧ cell.used = false := by
  unfold hasAvailableMovesFrom
  rw [List.any_eq_true]
  constructor
  · rintro ⟨i, hi, hbody⟩
    rw [List.any_eq_true] at hbody
    obtain ⟨j, hj, hcond⟩ := hbody
    rw [List.mem_range] at hi hj
    rw [Bool.and_eq_true] at hcond
    obtain ⟨hb, hrest⟩ := hcond
    cases hget : getCell g (row - 1 + (i : ℤ)) (col - 1 + (j : ℤ)) with
    | none => rw [hget] at hrest; exact absurd hrest (by simp)
    | some cell =>
      rw [hget] at hrest
      rw [Bool.and_eq_true] at hrest
      obtain ⟨hu, hne⟩ := hrest
      refine ⟨row - 1 + (i : ℤ), col - 1 + (j : ℤ), cell, by omega, by omega, ?_, hget, ?_⟩
      · intro ⟨h1, h2⟩
        rw [h1, h2] at hne
        simp at hne
      · simp only [Bool.not_eq_true'] at hu
        exact hu
  · rintro ⟨r, c, cell, hr, hc, hne, hget, hu⟩
    have hb := getCell_bounds g r c cell hwf hget
    refine ⟨(r - row + 1).toNat, (by rw [List.mem_range]; omega), ?_⟩
    rw [List.any_eq_true]
    refine ⟨(c - col + 1).toNat, (by rw [List.mem_range]; omega), ?_⟩
    have hre : row - 1 + ((r - row + 1).toNat : ℤ) = r := by omega
    have hce : col - 1 + ((c - col + 1).toNat : ℤ) = c := by omega
    rw [hre, hce, hget]
    rw [Bool.and_eq_true]
    constructor
    · unfold inBounds
      simp only [Bool.and_eq_true, decide_eq_true_eq]
      exact ⟨⟨⟨hb.1, hb.2.1⟩, hb.2.2.1⟩, hb.2.2.2⟩
    · rw [Bool.and_eq_true]
      refine ⟨by rw [hu]; rfl, ?_⟩
      simp only [Bool.not_eq_true', Bool.and_eq_false_iff, decide_eq_false_iff_not]
      by_cases h1 : r = row
      · exact Or.inr (fun h2 => hne ⟨h1, h2⟩)
      · exact Or.inl h1

theorem checkGameOver_gameOver (g : Grid) (v : ℚ) (sel : ℤ × ℤ) (sco : ℚ) (mv : ℕ) :
    (checkGameOver
        { grid := g, currentValue := some v, selectedCell := some sel,
          score := sco, moves := mv, gameOver := false }).gameOver
      = (countUnused g == 0 || !hasAvailableMovesFrom g sel.1 sel.2) := by
  show (if (countUnused g == 0 || !hasAvailableMovesFrom g sel.1 sel.2) = true
      then ({ grid := g, currentValue := some v, selectedCell := some sel,
              score := sco, moves := mv, gameOver := true } : GameState)
      else
        { grid := g, currentValue := some v, selectedCell := some sel,
          score := sco, moves := mv, gameOver := false }).gameOver
    = (countUnused g == 0 || !hasAvailableMovesFrom g sel.1 sel.2)
  by_cases hb : (countUnused g == 0 || !hasAvailableMovesFrom g sel.1 sel.2) = true
  · rw [if_pos hb, hb]
  · rw [if_neg hb]
    simp only [Bool.not_eq_true] at hb
    rw [hb]

/-- C4: the terminal check sets gameOver exactly when, given a non-null
selection (and, as in every reachable selected state, a non-null current
value) in a running game, either every cell is used or no unused cell
exists among the in-bounds 8-neighbours of the selected cell excluding
itself; with a null selection the check never marks the state terminal
(it leaves the state untouched). -/
theorem checkGameOver_spec :
    (∀ (s : GameState) (sel : ℤ × ℤ) (v : ℚ), gridWF s.grid →
      s.selectedCell = some sel → s.currentValue = some v → s.gameOver = false →
      ((checkGameOver s).gameOver = true ↔
        (∀ cell ∈ s.grid.flatten, cell.used = true) ∨
        ¬ ∃ r c : ℤ, ∃ cell : Cell,
            (r - sel.1).natAbs ≤ 1 ∧ (c - sel.2).natAbs ≤ 1 ∧ ¬(r = sel.1 ∧ c = sel.2) ∧
            getCell s.grid r c = some cell ∧ cell.used = false)) ∧
    (∀ s : GameState, s.selectedCell = none → checkGameOver s = s) := by
  constructor
  · intro s sel v hwf hsel hcv hgo
    obtain ⟨g, cv, sc, sco, mv, go⟩ := s
    dsimp only at hwf hsel hcv hgo ⊢
    subst hsel
    subst hcv
    subst hgo
    rw [checkGameOver_gameOver]
    simp only [Bool.or_eq_true, beq_iff_eq, Bool.not_eq_true']
    exact or_congr (countUnused_eq_zero_iff g)
      (by rw [Bool.eq_false_iff, ne_eq, hasAvailableMovesFrom_iff g sel.1 sel.2 hwf])
  · intro s hsel
    obtain ⟨g, cv, sc, sco, mv, go⟩ := s
    dsimp only at hsel
    subst hsel
    cases cv with
    | none => rfl
    | some v => rfl

/-- C4 witness: the characterisation applied to the concrete mid-game
state with the corner cell selected. -/
theorem checkGameOver_spec_witness :
    (checkGameOver exState1).gameOver = true ↔
      (∀ cell ∈ exState1.grid.flatten, cell.used = true) ∨
      ¬ ∃ r c : ℤ, ∃ cell : Cell,
          (r - (0 : ℤ)).natAbs ≤ 1 ∧ (c - (0 : ℤ)).natAbs ≤ 1 ∧ ¬(r = 0 ∧ c = 0) ∧
          getCell exState1.grid r c = some cell ∧ cell.used = false :=
  checkGameOver_spec.1 exState1 (0, 0) 1 ⟨by decide, by decide⟩ rfl rfl rfl

/-- One accepted tap never lowers the score. -/
theorem score_le_handleCellPress (s : GameState) (r c : ℤ) (s' : GameState)
    (h : handleCellPress s r c = some s') : s.score ≤ s'.score := by
  rcases handleCellPress_cases s r c s' h with rfl | ⟨cell, hget, hu, hgo, hbr⟩
  · exact le_refl _
  · rcases hbr with ⟨hcv, rfl⟩ | ⟨v, op, result, hcv, hres, rfl⟩
    · exact le_refl _
    · show s.score ≤ if s.score < result then result else s.score
      split
      · exact le_of_lt (by assumption)
      · exact le_refl _

/-- A whole accepted tap sequence never lowers the score. -/
theorem score_le_runTaps (taps : List (ℤ × ℤ)) (s s' : GameState)
    (h : runTaps s taps = some s') : s.score ≤ s'.score := by
  induction taps generalizing s with
  | nil =>
    obtain rfl : s = s' := Option.some.inj h
    exact le_refl _
  | cons rc rest ih =>
    unfold runTaps at h
    cases hstep : tapStep s rc with
    | none => rw [hstep] at h; exact absurd h (by simp)
    | some s1 =>
      rw [hstep] at h
      have h1 : s.score ≤ s1.score := by
        unfold tapStep at hstep
        cases hpress : handleCellPress s rc.1 rc.2 with
        | none => rw [hpress] at hstep; exact absurd hstep (by simp)
        | some s2 =>
          rw [hpress] at hstep
          simp only [Option.map_some'] at hstep
          obtain rfl : checkGameOver s2 = s1 := Option.some.inj hstep
          calc s.score ≤ s2.score := score_le_handleCellPress s rc.1 rc.2 s2 hpress
            _ = (checkGameOver s2).score := ((checkGameOver_fields s2).2.2.2.1).symm
      exact le_trans h1 (ih s1 h)

/-- C5: within one session the score is monotonically non-decreasing over
any tap sequence, and each performed move sets the score to the newly
computed running value exactly when that value exceeds the stored score,
leaving it unchanged otherwise. -/
theorem score_monotone_spec :
    (∀ (s : GameState) (taps : List (ℤ × ℤ)) (s' : GameState),
        runTaps s taps = some s' → s.score ≤ s'.score) ∧
    (∀ (s : GameState) (tr tc : ℤ) (op : String) (s' : GameState),
        performOperation s tr tc op = some s' →
        s' = s ∨ ∃ result, s'.currentValue = some result ∧
          s'.score = if s.score < result then result else s.score) := by
  constructor
  · intro s taps s' h
    exact score_le_runTaps taps s s' h
  · intro s tr tc op s' h
    unfold performOperation at h
    split at h
    · rename_i cv sel hcv hsel
      split at h
      · exact absurd h (by simp)
      · rename_i targetCell hget
        split at h
        · exact Or.inl (Option.some.inj h).symm
        · split at h
          · exact Or.inl (Option.some.inj h).symm
          · rename_i result hres
            obtain rfl :
                ({ s with grid := markUsed s.grid tr tc, currentValue := some result,
                          selectedCell := some (tr, tc), moves := s.moves + 1,
                          score := if s.score < result then result
                                   else s.score } : GameState) = s' :=
              Option.some.inj h
            exact Or.inr ⟨result, rfl, rfl⟩
    · exact Or.inl (Option.some.inj h).symm

/-- C5 witness: the sequence theorem applied to the first tap on the
fresh all-ones grid. -/
theorem score_monotone_spec_witness : exState0.score ≤ exState1.score :=
  score_monotone_spec.1 exState0 [(0, 0)] exState1 (by decide)

/-- Evaluation of a performed move on a state with an active selection:
the fetched unused target cell is consumed and the switch result is
stored. -/
theorem performOperation_eval (g : Grid) (cv : ℚ) (sel : ℤ × ℤ) (sco : ℚ) (mv : ℕ)
    (go : Bool) (tr tc : ℤ) (op : String) (cell : Cell) (result : ℚ)
    (hcell : getCell g tr tc = some cell) (hu : cell.used = false)
    (hres : computeResult cv cell.value op = some result) :
    performOperation
        { grid := g, currentValue := some cv, selectedCell := some sel,
          score := sco, moves := mv, gameOver := go } tr tc op
      = some { grid := markUsed g tr tc, currentValue := some result,
               selectedCell := some (tr, tc), moves := mv + 1,
               score := if sco < result then result else sco, gameOver := go } := by
  unfold performOperation
  rw [hcell]
  simp only [hu, hres]
  rfl

/-- C6: a performed Divide with a non-zero target value stores
currentValue / targetValue rounded to two decimals: (value * 100)
rounded to the nearest integer with ties up, divided by 100; in
particular the stored value is an integer number of hundredths. -/
theorem divide_rounds_spec (s : GameState) (tr tc : ℤ) (cur : ℚ) (sel : ℤ × ℤ) (cell : Cell)
    (hcv : s.currentValue = some cur) (hsel : s.selectedCell = some sel)
    (hcell : getCell s.grid tr tc = some cell) (hu : cell.used = false)
    (htv : cell.value ≠ 0) :
    ∃ s', performOperation s tr tc "divide" = some s' ∧
      s'.currentValue = some (((⌊cur / cell.value * 100 + 1 / 2⌋ : ℤ) : ℚ) / 100) ∧
      ∃ k : ℤ, s'.currentValue = some ((k : ℚ) / 100) ∧
        cur / cell.value * 100 - 1 / 2 < (k : ℚ) ∧
        (k : ℚ) ≤ cur / cell.value * 100 + 1 / 2 := by
  obtain ⟨g, cv, sc, sco, mv, go⟩ := s
  dsimp only at hcv hsel hcell ⊢
  subst hcv
  subst hsel
  have hres : computeResult cur cell.value "divide" = some (roundTo2 (cur / cell.value)) := by
    unfold computeResult
    rw [if_neg (by decide), if_neg (by decide), if_neg (by decide), if_pos rfl, if_pos htv]
  refine ⟨_, performOperation_eval g cur sel sco mv go tr tc "divide" cell
      (roundTo2 (cur / cell.value)) hcell hu hres, rfl, ?_⟩
  refine ⟨⌊cur / cell.value * 100 + 1 / 2⌋, rfl, ?_, Int.floor_le _⟩
  have h2 := Int.lt_floor_add_one (cur / cell.value * 100 + 1 / 2)
  linarith

/-- C6 witness: dividing the running value 1 by the unused cell (0, 1)
holding 1 in the concrete mid-game state. -/
theorem divide_rounds_spec_witness :
    ∃ s', performOperation exState1 0 1 "divide" = some s' ∧
      s'.currentValue = some (((⌊(1 : ℚ) / 1 * 100 + 1 / 2⌋ : ℤ) : ℚ) / 100) ∧
      ∃ k : ℤ, s'.currentValue = some ((k : ℚ) / 100) ∧
        (1 : ℚ) / 1 * 100 - 1 / 2 < (k : ℚ) ∧ (k : ℚ) ≤ (1 : ℚ) / 1 * 100 + 1 / 2 :=
  divide_rounds_spec exState1 0 1 1 (0, 0) { value := 1, used := false, id := "0-1-1" }
    rfl rfl (by decide) rfl (by decide)

/-- C7 counterexample: the claim is false at the concrete state whose
running value is 1/8 and whose divide target holds 0: the divide branch
still rounds, so the stored value becomes 0.13, not 0.125. -/
theorem divide_zero_noop_cex :
    (performOperation cex7State 0 1 "divide").map (fun st => st.currentValue)
      = some (some ((13 : ℚ) / 100)) ∧ ((13 : ℚ) / 100) ≠ (1 : ℚ) / 8 := by
  have hres : computeResult (1 / 8) zeroCell.value "divide" = some ((13 : ℚ) / 100) := by
    unfold computeResult
    rw [if_neg (by decide), if_neg (by decide), if_neg (by decide), if_pos rfl,
      if_neg (by show ¬((0 : ℚ) ≠ 0); simp)]
    unfold roundTo2
    rw [show ((1 : ℚ) / 8 * 100 + 1 / 2) = ((13 : ℤ) : ℚ) by norm_num, Int.floor_intCast]
    norm_num
  constructor
  · unfold cex7State
    rw [performOperation_eval [[usedOneCell, zeroCell], [oneCell, oneCell]] (1 / 8) (0, 0)
      0 1 false 0 1 "divide" zeroCell ((13 : ℚ) / 100) (by decide) (by decide) hres]
    rfl
  · norm_num

/-- C7 amended: a Divide on a zero-valued target cell keeps the chosen
value equal to currentValue but still applies the rounding to two
decimals, so currentValue is unchanged exactly up to rounding — in
particular it is literally unchanged whenever it is a whole number of
hundredths, which holds for every value the game ever produces — and the
cell is still consumed with the state otherwise updating as for any
move. -/
theorem divide_zero_rounds (s : GameState) (tr tc : ℤ) (cur : ℚ) (sel : ℤ × ℤ) (cell : Cell)
    (hcv : s.currentValue = some cur) (hsel : s.selectedCell = some sel)
    (hcell : getCell s.grid tr tc = some cell) (hu : cell.used = false)
    (htv : cell.value = 0) :
    ∃ s', performOperation s tr tc "divide" = some s' ∧
      s'.currentValue = some (((⌊cur * 100 + 1 / 2⌋ : ℤ) : ℚ) / 100) ∧
      (∀ k : ℤ, cur = (k : ℚ) / 100 → s'.currentValue = some cur) ∧
      s'.selectedCell = some (tr, tc) ∧ s'.moves = s.moves + 1 ∧
      ∃ cell', getCell s'.grid tr tc = some cell' ∧ cell'.used = true := by
  obtain ⟨g, cv, sc, sco, mv, go⟩ := s
  dsimp only at hcv hsel hcell ⊢
  subst hcv
  subst hsel
  have hres : computeResult cur cell.value "divide" = some (roundTo2 cur) := by
    unfold computeResult
    rw [if_neg (by decide), if_neg (by decide), if_neg (by decide), if_pos rfl,
      if_neg (by rw [htv]; simp)]
  refine ⟨_, performOperation_eval g cur sel sco mv go tr tc "divide" cell
      (roundTo2 cur) hcell hu hres, rfl, ?_, rfl, rfl,
    ⟨{ cell with used := true }, getCell_markUsed_self g tr tc cell hcell, rfl⟩⟩
  intro k hk
  subst hk
  show some (roundTo2 ((k : ℚ) / 100)) = some ((k : ℚ) / 100)
  unfold roundTo2
  have h100 : (k : ℚ) / 100 * 100 = (k : ℚ) := by field_simp
  rw [h100]
  have hfl : ⌊(k : ℚ) + 1 / 2⌋ = k := by
    rw [add_comm, Int.floor_add_int]
    have : ⌊(1 / 2 : ℚ)⌋ = 0 := by
      rw [Int.floor_eq_zero_iff]
      constructor <;> norm_num
    rw [this, zero_add]
  rw [hfl]

/-- C7 witness for the amended claim: the zero-divide at the concrete
state with running value 1/8. -/
theorem divide_zero_rounds_witness :
    ∃ s', performOperation cex7State 0 1 "divide" = some s' ∧
      s'.currentValue = some (((⌊(1 : ℚ) / 8 * 100 + 1 / 2⌋ : ℤ) : ℚ) / 100) ∧
      (∀ k : ℤ, (1 : ℚ) / 8 = (k : ℚ) / 100 → s'.currentValue = some ((1 : ℚ) / 8)) ∧
      s'.selectedCell = some (0, 1) ∧ s'.moves = cex7State.moves + 1 ∧
      ∃ cell', getCell s'.grid 0 1 = some cell' ∧ cell'.used = true :=
  divide_zero_rounds cex7State 0 1 (1 / 8) (0, 0) zeroCell rfl rfl (by decide) rfl rfl

/-- A freshly generated grid has no used cell. -/
theorem usedCount_generateInitialGrid (rand : ℕ → Fin 9) :
    usedCount (generateInitialGrid rand) = 0 := rfl

/-- C8: in every reachable state, a non-null selectedCell points at a
cell of the grid whose used flag is on: both the first selection and
every performed move mark the target cell used in the transition that
selects it, and every other transition changes neither. -/
theorem selectedCell_used_invariant (s : GameState) (hs : Reachable s) (sel : ℤ × ℤ)
    (hsel : s.selectedCell = some sel) :
    ∃ cell, getCell s.grid sel.1 sel.2 = some cell ∧ cell.used = true := by
  revert hsel
  induction hs with
  | init g hg =>
    intro hsel
    exact absurd hsel (by simp [initState])
  | tap s r c s' hs hstep ih =>
    intro hsel
    rcases handleCellPress_cases s r c s' hstep with rfl | ⟨cell, hget, hu, hgo, hbr⟩
    · exact ih hsel
    · rcases hbr with ⟨hcv, rfl⟩ | ⟨v, op, result, hcv, hres, rfl⟩
      · obtain rfl : (r, c) = sel := Option.some.inj hsel
        exact ⟨{ cell with used := true }, getCell_markUsed_self s.grid r c cell hget, rfl⟩
      · obtain rfl : (r, c) = sel := Option.some.inj hsel
        exact ⟨{ cell with used := true }, getCell_markUsed_self s.grid r c cell hget, rfl⟩
  | check s hs ih =>
    intro hsel
    have hf := checkGameOver_fields s
    rw [hf.2.2.1] at hsel
    obtain ⟨cell, hc, hu⟩ := ih hsel
    exact ⟨cell, by rw [hf.1]; exact hc, hu⟩

/-- C8 witness: the invariant applied to the concrete reachable state
with the corner cell selected. -/
theorem selectedCell_used_invariant_witness :
    ∃ cell, getCell exState1.grid (0 : ℤ) (0 : ℤ) = some cell ∧ cell.used = true :=
  selectedCell_used_invariant exState1
    (Reachable.tap exState0 0 0 exState1 (Reachable.init exGrid ⟨exRand, rfl⟩) (by decide))
    (0, 0) rfl

/-- C10: in every reachable state the move counter equals the number of
used cells, and every accepted tap either leaves the state unchanged or
consumes exactly one unused cell while bumping the counter by one. -/
theorem moveCount_eq_usedCount :
    (∀ s : GameState, Reachable s → s.moves = usedCount s.grid) ∧
    (∀ (s : GameState) (r c : ℤ) (s' : GameState), handleCellPress s r c = some s' →
      s' = s ∨ (s'.moves = s.moves + 1 ∧ usedCount s'.grid = usedCount s.grid + 1)) := by
  have hstep : ∀ (s : GameState) (r c : ℤ) (s' : GameState),
      handleCellPress s r c = some s' →
      s' = s ∨ (s'.moves = s.moves + 1 ∧ usedCount s'.grid = usedCount s.grid + 1) := by
    intro s r c s' h
    rcases handleCellPress_cases s r c s' h with rfl | ⟨cell, hget, hu, hgo, hbr⟩
    · exact Or.inl rfl
    · rcases hbr with ⟨hcv, rfl⟩ | ⟨v, op, result, hcv, hres, rfl⟩
      · exact Or.inr ⟨rfl, usedCount_markUsed s.grid r c cell hget hu⟩
      · exact Or.inr ⟨rfl, usedCount_markUsed s.grid r c cell hget hu⟩
  refine ⟨?_, hstep⟩
  intro s hs
  induction hs with
  | init g hg =>
    obtain ⟨rand, rfl⟩ := hg
    show 0 = usedCount (generateInitialGrid rand)
    rw [usedCount_generateInitialGrid]
  | tap s r c s' hs hstep' ih =>
    rcases hstep s r c s' hstep' with rfl | ⟨hm, hc⟩
    · exact ih
    · rw [hm, hc, ih]
  | check s hs ih =>
    have hf := checkGameOver_fields s
    rw [hf.2.2.2.2, hf.1]
    exact ih

/-- C10 witness: the invariant applied to the concrete reachable
mid-game state with one consumed cell. -/
theorem moveCount_eq_usedCount_witness : exState1.moves = usedCount exState1.grid :=
  moveCount_eq_usedCount.1 exState1
    (Reachable.tap exState0 0 0 exState1 (Reachable.init exGrid ⟨exRand, rfl⟩) (by decide))

/-- C9: every generated grid is GRID_SIZE rows of GRID_SIZE cells (16
cells in row-major order for N = 4), every cell value is an integer
between 1 and 9, every cell starts unused, and the cell identifiers are
pairwise distinct within the grid. -/
theorem generateInitialGrid_spec (rand : ℕ → Fin 9) :
    (generateInitialGrid rand).length = GRID_SIZE ∧
    (∀ row ∈ generateInitialGrid rand, row.length = GRID_SIZE) ∧
    (generateInitialGrid rand).flatten.length = 16 ∧
    (∀ cell ∈ (generateInitialGrid rand).flatten,
      (∃ m : ℤ, cell.value = (m : ℚ)) ∧ 1 ≤ cell.value ∧ cell.value ≤ 9 ∧
        cell.used = false) ∧
    ((generateInitialGrid rand).flatten.map fun cell => cell.id).Nodup := by
  have hid : ((generateInitialGrid rand).flatten.map fun cell => cell.id)
      = ["0-0-0", "0-1-1", "0-2-2", "0-3-3", "1-0-4", "1-1-5", "1-2-6", "1-3-7",
         "2-0-8", "2-1-9", "2-2-10", "2-3-11", "3-0-12", "3-1-13", "3-2-14", "3-3-15"] := rfl
  refine ⟨rfl, ?_, rfl, ?_, by rw [hid]; decide⟩
  · intro row hrow
    rw [generateInitialGrid, List.mem_map] at hrow
    obtain ⟨i, hi, rfl⟩ := hrow
    simp [GRID_SIZE]
  · intro cell hcell
    rw [List.mem_flatten] at hcell
    obtain ⟨row, hrowmem, hcellmem⟩ := hcell
    rw [generateInitialGrid, List.mem_map] at hrowmem
    obtain ⟨i, hi, rfl⟩ := hrowmem
    rw [List.mem_map] at hcellmem
    obtain ⟨j, hj, rfl⟩ := hcellmem
    have hlt : (rand (i * GRID_SIZE + j)).val < 9 := (rand (i * GRID_SIZE + j)).is_lt
    refine ⟨⟨((rand (i * GRID_SIZE + j)).val + 1 : ℕ), by push_cast; ring⟩, ?_, ?_, rfl⟩
    · show (1 : ℚ) ≤ (((rand (i * GRID_SIZE + j)).val + 1 : ℕ) : ℚ)
      exact_mod_cast Nat.succ_le_succ (Nat.zero_le _)
    · show (((rand (i * GRID_SIZE + j)).val + 1 : ℕ) : ℚ) ≤ 9
      exact_mod_cast Nat.succ_le_of_lt hlt

/-- C9 witness: the generator properties at the concrete all-ones random
stream, with the membership part applied to the first generated cell. -/
theorem generateInitialGrid_spec_witness :
    (generateInitialGrid exRand).length = GRID_SIZE ∧
    ((generateInitialGrid exRand).flatten.map fun cell => cell.id).Nodup ∧
    (1 : ℚ) ≤ ({ value := 1, used := false, id := "0-0-0" } : Cell).value :=
  ⟨(generateInitialGrid_spec exRand).1, (generateInitialGrid_spec exRand).2.2.2.2,
    ((generateInitialGrid_spec exRand).2.2.2.1
      { value := 1, used := false, id := "0-0-0" } (by decide)).2.1⟩
